import Mathlib

/-!
Verification development for the git-game repository.

The embedded core is the mobile learning app (the only component in the
sources with real state-machine behaviour):
* `GitRepositoryEngine` (src/unnamed/part_002) — a JGit-backed engine that
  seeds a stage repository and executes safe-listed git commands;
* `CommandEvaluator` (src/unnamed/part_004) — textual pass/fail evaluation;
* `StageRepository` (mobile-learning-game .../data/StageRepository.kt);
* `GameViewModel` (mobile-learning-game .../ui/GameViewModel.kt).

Modelling conventions:
* JGit repositories are modelled by `Repo`: a commit store (a commit's id is
  its index in the store, standing in for the hash), branch and tag reference
  maps, the current branch, the index (staging area as a full tree snapshot),
  the working tree, and a stash counter.
* Kotlin strings are Lean `String`s; the handful of Kotlin string operations
  used by the source (trim, lowercase, split on whitespace, substringAfter)
  are re-implemented below over the character list so that everything reduces
  in the kernel.
* `System.currentTimeMillis()` is modelled by a `clock : Nat` held in the
  engine state; it is read where the source reads the wall clock.
* The anchored dispatch regexes of `runGitCommand` (all of the shape
  `^git\s+verb\b`, applied with IGNORE_CASE) are modelled by case-insensitive
  comparison of whitespace-separated tokens.
-/

namespace GitGame

/-- Whitespace as used by Kotlin `trim()` / `Regex("\\s+")` (space, tab, LF, CR). -/
def isWsC (c : Char) : Bool :=
  c == ' ' || c == Char.ofNat 9 || c == Char.ofNat 10 || c == Char.ofNat 13

/-- Kotlin `String.trim()`. -/
def trimStr (s : String) : String :=
  String.mk (((s.data.dropWhile isWsC).reverse.dropWhile isWsC).reverse)

/-- Kotlin `String.lowercase()` (ASCII range; the source only lowercases ASCII). -/
def lowerStr (s : String) : String :=
  String.mk (s.data.map Char.toLower)

/-- Split a character list at every occurrence of `sep`, keeping empty pieces. -/
def splitOnChar (sep : Char) : List Char → List (List Char)
  | [] => [[]]
  | c :: rest =>
    match splitOnChar sep rest with
    | [] => if c == sep then [[], []] else [[c]]
    | w :: ws => if c == sep then [] :: w :: ws else (c :: w) :: ws

/-- Kotlin `split(" ")` (keeps empty pieces). -/
def splitSpace (s : String) : List String :=
  (splitOnChar ' ' s.data).map String.mk

/-- Kotlin `split(Regex("\\s+"))` on trimmed input: the whitespace-separated tokens. -/
def words (s : String) : List String :=
  ((splitOnChar ' ' s.data).filter (fun l => !l.isEmpty)).map String.mk

/-- Does `hay` start with `needle`? -/
def startsWithL : List Char → List Char → Bool
  | _, [] => true
  | [], _ :: _ => false
  | a :: as, b :: bs => a == b && startsWithL as bs

/-- Kotlin `String.startsWith`. -/
def startsWithStr (s pre0 : String) : Bool :=
  startsWithL s.data pre0.data

/-- Does `hay` contain `needle` as a contiguous sublist? -/
def containsL (needle : List Char) : List Char → Bool
  | [] => startsWithL [] needle
  | c :: rest => startsWithL (c :: rest) needle || containsL needle rest

/-- Kotlin `String.contains` / a regex `.*pat.*` membership test. -/
def containsStr (s pat : String) : Bool :=
  containsL pat.data s.data

/-- The suffix after the first occurrence of `needle`, if present. -/
def afterL (needle : List Char) : List Char → Option (List Char)
  | [] => if startsWithL [] needle then some [] else none
  | c :: rest =>
    if startsWithL (c :: rest) needle then some ((c :: rest).drop needle.length)
    else afterL needle rest

/-- Kotlin `String.substringAfter(pat)` (whole string when `pat` is absent). -/
def substringAfter (s pat : String) : String :=
  match afterL pat.data s.data with
  | some l => String.mk l
  | none => s

/-- Kotlin `command.substringAfter(marker).trim().split(" ").firstOrNull()`. -/
def firstTokenAfter (command marker : String) : String :=
  (splitSpace (trimStr (substringAfter command marker))).headD ""

/-- Kotlin `command.substringAfter(marker).trim().split(" ").lastOrNull()`. -/
def lastTokenAfter (command marker : String) : String :=
  (splitSpace (trimStr (substringAfter command marker))).getLastD ""

/-- The `n`-th whitespace token of a command, lowercased (models the
IGNORE_CASE anchored dispatch regexes of `runGitCommand`). -/
def tokL (command : String) (n : Nat) : String :=
  lowerStr (((words command).get? n).getD "")

/-- Kotlin `String.take 7` on a rendered id (models `ObjectId.name.take(7)`). -/
def takeStr (s : String) (n : Nat) : String :=
  String.mk (s.data.take n)

/-! ## The repository model (the JGit collaborator) -/

/-- A commit: message, parent commit ids, and the committed tree (an
association list from path to file content). Commit ids are indices into
`Repo.commits`; they stand in for JGit object hashes. -/
structure Commit where
  msg : String
  parents : List Nat
  tree : List (String × String)
deriving Repr, DecidableEq

/-- A JGit repository as the engine uses it: commit store, branch and tag
reference maps, current branch name, index (staging area, as the full tree
snapshot it would commit), working tree files, and a stash count. -/
structure Repo where
  commits : List Commit
  branches : List (String × Nat)
  tags : List (String × Nat)
  current : String
  index : List (String × String)
  workdir : List (String × String)
  stashes : Nat
deriving Repr, DecidableEq

/-- Update-or-append in an association list. -/
def setKey {α : Type} (l : List (String × α)) (k : String) (v : α) :
    List (String × α) :=
  match l with
  | [] => [(k, v)]
  | (k2, v2) :: rest => if k2 == k then (k, v) :: rest else (k2, v2) :: setKey rest k v

/-- Exceptions the modelled JGit calls can raise. -/
inductive GitError
  | refNotFound (ref : String)
  | refAlreadyExists (ref : String)
  | emptyCommit
  | notMerged (name : String)
  | cannotDeleteCurrent (name : String)
  | noHead
deriving Repr, DecidableEq

/-- `e.message` of the modelled exception, as interpolated by `execute`. -/
def errMessage : GitError → String
  | .refNotFound ref => "Ref " ++ ref ++ " cannot be resolved"
  | .refAlreadyExists ref => "Ref " ++ ref ++ " already exists"
  | .emptyCommit => "No changes"
  | .notMerged name => "Branch " ++ name ++ " was not deleted as it has not been merged yet"
  | .cannotDeleteCurrent name => "Branch " ++ name ++ " is checked out"
  | .noHead => "No HEAD exists"

def headId (r : Repo) : Option Nat :=
  r.branches.lookup r.current

def commitAt (r : Repo) (i : Nat) : Option Commit :=
  r.commits.get? i

/-- The tree of the commit the current branch points to (empty before the
first commit, i.e. on an unborn branch). -/
def headTree (r : Repo) : List (String × String) :=
  (((headId r).bind (commitAt r)).map Commit.tree).getD []

/-- JGit `Status.getAdded`: paths staged that are absent from HEAD. -/
def statusAdded (r : Repo) : List String :=
  (r.index.filter (fun kv => ((headTree r).lookup kv.1).isNone)).map (·.1)

/-- JGit `Status.getChanged`: staged paths whose content differs from HEAD. -/
def statusChanged (r : Repo) : List String :=
  (r.index.filter (fun kv =>
    match (headTree r).lookup kv.1 with
    | some v => v != kv.2
    | none => false)).map (·.1)

/-- JGit `Status.getModified`: working-tree paths differing from the index. -/
def statusModified (r : Repo) : List String :=
  (r.workdir.filter (fun kv =>
    match r.index.lookup kv.1 with
    | some v => v != kv.2
    | none => false)).map (·.1)

/-- JGit `Status.getUntracked`: working-tree paths absent from the index. -/
def statusUntracked (r : Repo) : List String :=
  (r.workdir.filter (fun kv => (r.index.lookup kv.1).isNone)).map (·.1)

/-- JGit `Status.getRemoved`: HEAD paths staged for deletion. -/
def statusRemoved (r : Repo) : List String :=
  ((headTree r).filter (fun kv => (r.index.lookup kv.1).isNone)).map (·.1)

/-- The dirtiness test of `ensureSomethingToCommit` (part_002 lines 243-255). -/
def isDirty (r : Repo) : Bool :=
  !(statusAdded r).isEmpty || !(statusChanged r).isEmpty ||
    !(statusModified r).isEmpty || !(statusUntracked r).isEmpty ||
    !(statusRemoved r).isEmpty

/-- `writeFile` (part_002 lines 210-215): write a working-tree file. -/
def writeFileOp (r : Repo) (name content : String) : Repo :=
  { r with workdir := setKey r.workdir name content }

/-- `git.add().addFilepattern(pat).call()`: pattern "." stages every
working-tree file; otherwise the single named file is staged when it exists
(JGit silently ignores a pattern matching nothing; glob patterns other than
"." are not modelled). -/
def addPattern (r : Repo) (pat : String) : Repo :=
  if pat == "." then
    { r with index := r.workdir.foldl (fun ix kv => setKey ix kv.1 kv.2) r.index }
  else
    match r.workdir.lookup pat with
    | some v => { r with index := setKey r.index pat v }
    | none => r

/-- The tree id comparison JGit's `CommitCommand` performs for
`setAllowEmpty(false)`: the tree built from the index equals the parent tree
exactly when no staged addition, change or deletion exists. -/
def commitEmptyB (r : Repo) : Bool :=
  (statusAdded r).isEmpty && (statusChanged r).isEmpty && (statusRemoved r).isEmpty

/-- `git.commit().setMessage(msg).call()` with empty commits allowed (the
seeding path): append a commit of the index tree and advance the current
branch to it. -/
def commitTotal (r : Repo) (msg : String) : Repo :=
  let c : Commit := { msg := msg, parents := (headId r).toList, tree := r.index }
  { r with
    commits := r.commits ++ [c]
    branches := setKey r.branches r.current r.commits.length }

/-- `git.commit().setMessage(msg).setAllowEmpty(false).call()`: raises
`EmptyCommitException` when HEAD exists and the staged tree equals it. -/
def commitStrict (r : Repo) (msg : String) : Except GitError Repo :=
  if (headId r).isSome && commitEmptyB r then .error .emptyCommit
  else .ok (commitTotal r msg)

/-- `git.checkout().setName(name).call()`: switch to an existing branch,
resetting index and working tree to its tree (untracked files are kept);
raises `RefNotFoundException` otherwise. -/
def checkoutBranch (r : Repo) (name : String) : Except GitError Repo :=
  match r.branches.lookup name with
  | some cid =>
    let t := ((commitAt r cid).map Commit.tree).getD []
    .ok { r with
      current := name
      index := t
      workdir := t ++ r.workdir.filter (fun kv => (r.index.lookup kv.1).isNone) }
  | none => .error (.refNotFound name)

/-- `git.checkout().setCreateBranch(true).setName(name).call()`: create a
branch at HEAD and switch to it; raises when the name exists or HEAD is
unborn. -/
def checkoutCreate (r : Repo) (name : String) : Except GitError Repo :=
  if (r.branches.lookup name).isSome then .error (.refAlreadyExists name)
  else
    match headId r with
    | some h => .ok { r with branches := setKey r.branches name h, current := name }
    | none => .error (.refNotFound name)

/-- `git.branchRename().setNewName("main")` as used by `ensureMainBranch`. -/
def renameCurrentBranch (r : Repo) (newName : String) : Repo :=
  { r with
    branches := r.branches.map (fun kv => if kv.1 == r.current then (newName, kv.2) else kv)
    current := newName }

/-- `git.tag().setName(name).setMessage(msg).call()`: an annotated tag on
HEAD (the message is not stored in the model; no rule reads it back). -/
def tagOp (r : Repo) (name : String) : Except GitError Repo :=
  if (r.tags.lookup name).isSome then .error (.refAlreadyExists name)
  else .ok { r with tags := setKey r.tags name ((headId r).getD 0) }

def parentsOf (r : Repo) (i : Nat) : List Nat :=
  ((commitAt r i).map Commit.parents).getD []

/-- Fuel-bounded walk collecting the commits reachable from the work list. -/
def reachAux (r : Repo) : Nat → List Nat → List Nat → List Nat
  | 0, _, seen => seen
  | _ + 1, [], seen => seen
  | fuel + 1, i :: work, seen =>
    if seen.contains i then reachAux r fuel work seen
    else reachAux r fuel (parentsOf r i ++ work) (i :: seen)

/-- Ample fuel: the walk visits each stored commit at most once and each
visit pushes at most `commits.length` parents. -/
def reachFuel (r : Repo) : Nat :=
  (r.commits.length + 1) * (r.commits.length + 1) + 1

/-- The commits reachable from `src` (inclusive). -/
def reachableFrom (r : Repo) (src : Nat) : List Nat :=
  reachAux r (reachFuel r) [src] []

/-- The commits reachable from HEAD on the current branch. -/
def reachableFromHead (r : Repo) : List Nat :=
  match headId r with
  | some h => reachableFrom r h
  | none => []

/-- Is `tgt` an ancestor of (or equal to) `src`? -/
def reachB (r : Repo) (src tgt : Nat) : Bool :=
  (reachableFrom r src).contains tgt

/-- `git.branchDelete().setBranchNames(name).setForce(false).call()`:
deleting the checked-out branch raises; a missing branch is silently
ignored; a branch not merged into HEAD raises `NotMergedException`. -/
def branchDeleteOp (r : Repo) (name : String) : Except GitError Repo :=
  if name == r.current then .error (.cannotDeleteCurrent name)
  else
    match r.branches.lookup name with
    | none => .ok r
    | some cid =>
      match headId r with
      | some tip =>
        if reachB r tip cid then
          .ok { r with branches := r.branches.filter (fun kv => kv.1 != name) }
        else .error (.notMerged name)
      | none => .error (.notMerged name)

/-- `git.stashCreate().call()`: with no staged or unstaged change it returns
null and stashes nothing; otherwise the tracked changes are stashed and
index and working tree reset to HEAD (untracked files stay). -/
def stashCreateOp (r : Repo) : Repo :=
  if (statusAdded r).isEmpty && (statusChanged r).isEmpty &&
      (statusModified r).isEmpty && (statusRemoved r).isEmpty then r
  else
    { r with
      stashes := r.stashes + 1
      index := headTree r
      workdir := headTree r ++ r.workdir.filter (fun kv => (r.index.lookup kv.1).isNone) }

/-- `repository.resolve(ref)` (part_002 lines 257-260) restricted to the
ref names the model has: HEAD, branch names, tag names (raw hashes are not
modelled). -/
def resolve (r : Repo) (ref : String) : Option Nat :=
  if ref == "HEAD" then headId r
  else
    match r.branches.lookup ref with
    | some i => some i
    | none => r.tags.lookup ref

/-- `currentBranch()` (part_002 lines 262-265) for an open repository. -/
def currentBranch (r : Repo) : String :=
  r.current

/-! ## GitRepositoryEngine (src/unnamed/part_002) -/

/-- `{success, output}` as returned by the engine. -/
structure EngineResult where
  success : Bool
  output : String
deriving Repr, DecidableEq

def quoteC : Char := Char.ofNat 39

def dquoteC : Char := Char.ofNat 34

/-- The characters before the closing quote `q`, when one follows. -/
def captureTo (q : Char) : List Char → Option (List Char)
  | [] => none
  | c :: rest => if c == q then some [] else (captureTo q rest).map (c :: ·)

/-- After at least one whitespace character: an opening quote `q` and a
nonempty capture up to the closing quote (the `\s+` and `([^q]+)` parts of
the `-m` regexes). -/
def afterSpacesQuoted (q : Char) : List Char → Option String
  | [] => none
  | c :: rest =>
    if isWsC c then afterSpacesQuoted q rest
    else if c == q then
      match captureTo q rest with
      | some [] => none
      | some cs => some (String.mk cs)
      | none => none
    else none

/-- The part of the `-m` regex following the literal `-m`: one or more
whitespace characters, then the quoted message. -/
def afterDashM (q : Char) : List Char → Option String
  | [] => none
  | c :: rest => if isWsC c then afterSpacesQuoted q rest else none

/-- Regex search for `-m\s+q([^q]+)q` anywhere in the character list. -/
def scanDashM (q : Char) : List Char → Option String
  | [] => none
  | a :: rest =>
    (if a == '-' then
      match rest with
      | b :: rest2 => if b == 'm' then afterDashM q rest2 else none
      | [] => none
    else none).orElse (fun _ => scanDashM q rest)

/-- `extractCommitMessage` (part_002 lines 224-228): the single-quoted
`-m` message, else the double-quoted one. -/
def extractCommitMessage (command : String) : Option String :=
  (scanDashM quoteC command.data).orElse (fun _ => scanDashM dquoteC command.data)

/-- `extractTagName` (part_002 lines 230-236). -/
def extractTagName (command : String) : Option String :=
  let parts := words command
  if parts.length < 3 then none
  else (parts.drop 2).find? (fun token => !(startsWithStr token "-") && token != "-m")

/-- `defaultCommitMessage` (part_002 lines 238-241); the HH:mm:ss wall-clock
stamp is modelled by the engine clock. -/
def defaultCommitMessage (clk : Nat) : String :=
  s!"Mobile commit {clk}"

/-- The content `ensureSomethingToCommit` writes to journal.txt. -/
def journalLine (clk : Nat) : String :=
  s!"tick={clk}\n"

/-- `ensureSomethingToCommit` (part_002 lines 243-255): when the status is
completely clean, write a journal.txt stamped with the current clock and
stage it. -/
def ensureSomethingToCommit (r : Repo) (clk : Nat) : Repo :=
  if isDirty r then r
  else addPattern (writeFileOp r "journal.txt" (journalLine clk)) "journal.txt"

/-- `ObjectId.name.take(7)` over the modelled ids. -/
def shortId (i : Nat) : String :=
  takeStr (toString i) 7

def msgAt (r : Repo) (i : Nat) : String :=
  ((commitAt r i).map Commit.msg).getD ""

/-- JGit `shortMessage`: the first line of the commit message. -/
def shortMessageAt (r : Repo) (i : Nat) : String :=
  String.mk ((splitOnChar (Char.ofNat 10) (msgAt r i).data).headD [])

/-- The `git status` output line (part_002 lines 63-67); the four tracked
sets are unioned as Kotlin `Set` addition does. -/
def statusOutput (r : Repo) : String :=
  let tracked :=
    (statusAdded r ++ statusChanged r ++ statusModified r ++ statusRemoved r).eraseDups
  let n := tracked.length
  let nt := (statusUntracked r).length
  let b := currentBranch r
  s!"On branch {b} | changed={n} untracked={nt}"

/-- The first-parent chain from a commit (the engine never creates merge
commits, so JGit's time-ordered log walk is this chain). -/
def firstParentChain (r : Repo) : Nat → Nat → List Nat
  | 0, _ => []
  | fuel + 1, i =>
    i :: (match (parentsOf r i).head? with
      | some p => firstParentChain r fuel p
      | none => [])

/-- The `git log` branch (part_002 lines 68-73): last five commits, short id
and short message per line; raises `NoHeadException` on an unborn HEAD. -/
def logCmd (r : Repo) : Except GitError (Repo × EngineResult) :=
  match headId r with
  | none => .error .noHead
  | some h =>
    let ids := (firstParentChain r (r.commits.length + 1) h).take 5
    let logStr :=
      String.intercalate "\n" (ids.map (fun i => shortId i ++ " " ++ shortMessageAt r i))
    .ok (r, ⟨true, if trimStr logStr == "" then "커밋이 없습니다." else logStr⟩)

/-- The success output of the commit arm (part_002 line 95). -/
def commitDoneMsg (message : String) : String :=
  s!"commit 완료: {message}"

/-- The shared shape of the cherry-pick / merge / revert branches
(part_002 lines 104-121): resolve the target and report it as handled in
learning mode, without touching the repository. -/
def reportOnlyCmd (r : Repo) (verb ref missingMsg : String) :
    Except GitError (Repo × EngineResult) :=
  if ref == "" then .ok (r, ⟨false, missingMsg⟩)
  else
    match resolve r ref with
    | none => .ok (r, ⟨false, s!"참조를 찾을 수 없습니다: {ref}"⟩)
    | some i =>
      let h := shortId i
      .ok (r, ⟨true, s!"{verb} 대상 확인: {h} (학습 모드 반영)"⟩)

/-- `runGitCommand` (part_002 lines 59-137): the safe-listed dispatch, in
source order. The `checkout -b`/`switch -c` arm additionally requires a
fourth token because its regex ends in `\s+`; a three-token `git checkout -b`
therefore falls through to the plain checkout arm, and a three-token
`git switch -c` to the learning-mode arm, exactly as the regexes do. -/
def runGitCommand (r : Repo) (clk : Nat) (command : String) :
    Except GitError (Repo × EngineResult) :=
  let isGit := tokL command 0 == "git"
  let w1 := tokL command 1
  let w2 := tokL command 2
  if isGit && w1 == "status" then
    .ok (r, ⟨true, statusOutput r⟩)
  else if isGit && w1 == "log" then
    logCmd r
  else if isGit && ((w1 == "checkout" && w2 == "-b") || (w1 == "switch" && w2 == "-c"))
      && decide (4 ≤ (words command).length) then
    let branch := (words command).getLastD ""
    if branch == "" then .ok (r, ⟨false, "브랜치 이름이 필요합니다."⟩)
    else (checkoutCreate r branch).map (fun r2 => (r2, ⟨true, s!"새 브랜치 생성: {branch}"⟩))
  else if isGit && w1 == "checkout" && decide (3 ≤ (words command).length) then
    let branch := firstTokenAfter command "checkout"
    if branch == "" then .ok (r, ⟨false, "체크아웃 대상이 필요합니다."⟩)
    else (checkoutBranch r branch).map (fun r2 => (r2, ⟨true, s!"브랜치 전환: {branch}"⟩))
  else if isGit && w1 == "add" then
    let p := trimStr (substringAfter command "add")
    let filePattern := if p == "" then "." else p
    .ok (addPattern r filePattern, ⟨true, s!"staged: {filePattern}"⟩)
  else if isGit && w1 == "commit" then
    let message := (extractCommitMessage command).getD (defaultCommitMessage clk)
    let r1 := ensureSomethingToCommit r clk
    (commitStrict r1 message).map (fun r2 => (r2, ⟨true, commitDoneMsg message⟩))
  else if isGit && w1 == "tag" then
    match extractTagName command with
    | none => .ok (r, ⟨false, "태그 이름이 필요합니다."⟩)
    | some name => (tagOp r name).map (fun r2 => (r2, ⟨true, s!"태그 생성: {name}"⟩))
  else if isGit && w1 == "cherry-pick" then
    reportOnlyCmd r "cherry-pick" (firstTokenAfter command "cherry-pick")
      "cherry-pick 대상이 필요합니다."
  else if isGit && w1 == "merge" then
    reportOnlyCmd r "merge" (lastTokenAfter command "merge") "merge 대상이 필요합니다."
  else if isGit && w1 == "revert" then
    reportOnlyCmd r "revert" (firstTokenAfter command "revert") "revert 대상이 필요합니다."
  else if isGit && w1 == "branch" && w2 == "-d" then
    let branch := firstTokenAfter command "-d"
    if branch == "" then .ok (r, ⟨false, "삭제할 브랜치 이름이 필요합니다."⟩)
    else (branchDeleteOp r branch).map (fun r2 => (r2, ⟨true, s!"브랜치 삭제: {branch}"⟩))
  else if isGit && w1 == "stash" then
    .ok (stashCreateOp r, ⟨true, "stash 생성 완료"⟩)
  else
    .ok (r, ⟨true, "해당 git 명령은 JGit 완전 실행 대상이 아니어서 학습 모드로 처리했습니다."⟩)

/-- The engine's mutable fields (part_002 lines 18-20): the open repository
(none before the first `prepareStage`), the current stage id (-1 initially),
and the modelled wall clock. -/
structure EngineState where
  git : Option Repo
  currentStageId : Int
  clock : Nat
deriving Repr, DecidableEq

/-- `Git.init()`: the fresh repository, on the unborn default branch. -/
def initRepo : Repo :=
  { commits := [], branches := [], tags := [], current := "master",
    index := [], workdir := [], stashes := 0 }

/-- `call()` on a seeding operation; seeding operations always succeed on
the states they are applied to, so the fallback (in Kotlin an exception
escaping `prepareStage`) is inert. -/
def expectOk (x : Except GitError Repo) (fallback : Repo) : Repo :=
  match x with
  | .ok r => r
  | .error _ => fallback

/-- `ensureMainBranch` (part_002 lines 217-222). -/
def ensureMainBranch (r : Repo) : Repo :=
  if currentBranch r != "main" then renameCurrentBranch r "main" else r

/-- `seedBaseRepo` (part_002 lines 146-208): the base commit, the rename to
main, and the per-stage seed commits and branches. The fixed committer
identity set by `configureUser` carries no state the rules read and is not
modelled. -/
def seedBaseRepo (stageId : Int) : Repo :=
  let r0 := writeFileOp initRepo "README.md" s!"# Stage {stageId}\n"
  let r0 := addPattern r0 "README.md"
  let r0 := commitTotal r0 s!"Initial stage {stageId}"
  let base := ensureMainBranch r0
  if stageId = 1 then
    let a := expectOk (checkoutCreate base "hotfix") base
    let a := writeFileOp a "README.md" s!"# Stage {stageId}\nhotfix=true\n"
    let a := addPattern a "README.md"
    let a := commitTotal a "Hotfix: enable runtime patch"
    expectOk (checkoutBranch a "main") a
  else if stageId = 3 then
    let a := expectOk (checkoutCreate base "feature-ui") base
    let a := addPattern (writeFileOp a "ui.txt" "mode=feature\n") "ui.txt"
    let a := commitTotal a "UI tweak"
    let a := expectOk (checkoutBranch a "main") a
    let a := addPattern (writeFileOp a "ui.txt" "mode=main\n") "ui.txt"
    commitTotal a "Main hardening"
  else if stageId = 5 then
    let a := expectOk (checkoutCreate base "release") base
    let a := addPattern (writeFileOp a "service.py" "def add(a,b):\n    return a+b\n") "service.py"
    let a := commitTotal a "Release prep"
    expectOk (checkoutBranch a "main") a
  else if stageId = 9 then
    let a := expectOk (checkoutCreate base "feature-range") base
    let a := addPattern (writeFileOp a "config.py" "ENABLED=true\n") "config.py"
    let a := commitTotal a "Feature: add config"
    expectOk (checkoutBranch a "main") a
  else if stageId = 10 then
    let a := addPattern (writeFileOp base "calc.py" "def add(a,b):\n    return a+b+1\n") "calc.py"
    commitTotal a "Bad commit: off by one"
  else if stageId = 18 then
    let a := expectOk (checkoutCreate base "feature-merge") base
    let a := addPattern (writeFileOp a "config.yml" "mode: feature\n") "config.yml"
    let a := commitTotal a "Feature config"
    let a := expectOk (checkoutBranch a "main") a
    let a := addPattern (writeFileOp a "config.yml" "mode: main\n") "config.yml"
    commitTotal a "Main stable config"
  else if stageId = 19 then
    let a := expectOk (checkoutCreate base "feature-cleanup") base
    let a := addPattern (writeFileOp a "cleanup.txt" "done\n") "cleanup.txt"
    let a := commitTotal a "Cleanup done"
    expectOk (checkoutBranch a "main") a
  else
    base

/-- `prepareStage` (part_002 lines 22-37): the stage directory is deleted
and recreated, the repository re-initialised, the user configured and the
stage seeded; the prior repository (if any) is discarded entirely. -/
def prepareStage (s : EngineState) (stageId : Int) : EngineState × String :=
  ({ git := some (seedBaseRepo stageId), currentStageId := stageId, clock := s.clock },
    s!"Stage {stageId} 저장소를 초기화했습니다.")

/-- The bootstrap-on-demand guard at the top of `execute`
(part_002 lines 40-42). -/
def prepIfNeeded (s : EngineState) (stageId : Int) : EngineState :=
  if s.git.isNone || stageId != s.currentStageId then (prepareStage s stageId).1 else s

/-- `execute` (part_002 lines 39-57): bootstrap on demand, reject empty and
non-git input, then run the command, converting every raised engine error
into a failed `EngineResult`. -/
def execute (s : EngineState) (stageId : Int) (rawCommand : String) :
    EngineState × EngineResult :=
  let s1 := prepIfNeeded s stageId
  let command := trimStr rawCommand
  if command == "" then (s1, ⟨false, "명령어를 입력하세요."⟩)
  else if !(startsWithStr command "git ") then
    (s1, ⟨false, "모바일 버전은 git 명령만 지원합니다."⟩)
  else
    match s1.git with
    | none => (s1, ⟨false, "저장소가 초기화되지 않았습니다."⟩)
    | some r =>
      match runGitCommand r s1.clock command with
      | .ok (r2, res) => ({ s1 with git := some r2 }, res)
      | .error e => (s1, ⟨false, "실행 실패: " ++ errMessage e⟩)

/-! ## Stage catalog (StageRepository.kt) and CommandEvaluator (src/unnamed/part_004)

Each Kotlin `Regex` in a `CommandCheck` is modelled as a boolean predicate on
the normalized (trimmed, lowercased) command. The anchored `^git\s+verb\b`
parts are token comparisons; trailing `.*sub` parts are containment tests on
the text after the verb. -/

/-- A single quote character, for hint/solution texts. -/
def sq : String :=
  String.mk [quoteC]

structure CommandCheck where
  description : String
  patterns : List (String → Bool)

structure Stage where
  id : Int
  title : String
  objective : String
  hint : String
  solution : String
  checks : List CommandCheck

/-- `^git\s+v\b` on a normalized command. -/
def verbPat (v : String) (c : String) : Bool :=
  ((words c).get? 0).getD "" == "git" && ((words c).get? 1).getD "" == v

/-- `^git\s+v1\s+v2\b` on a normalized command. -/
def verb2Pat (v1 v2 : String) (c : String) : Bool :=
  verbPat v1 c && ((words c).get? 2).getD "" == v2

def endsWithStr (s suffix : String) : Bool :=
  startsWithL s.data.reverse suffix.data.reverse

/-- `-x\s+ours` as a token test: some token ends in "-x" and the next one
starts with "ours" (stage 18's pattern, already lowercased). -/
def dashXOursPat : List String → Bool
  | [] => false
  | a :: rest =>
    (endsWithStr a "-x" && startsWithStr ((rest.head?).getD "") "ours") || dashXOursPat rest

def stage1 : Stage :=
  { id := 1, title := "Cherry-pick Hotfix",
    objective := "hotfix 브랜치 커밋을 main으로 가져오세요.",
    hint := "git cherry-pick <hash>", solution := "git cherry-pick <hotfix-commit>",
    checks := [⟨"`git cherry-pick` 명령이 필요합니다.", [verbPat "cherry-pick"]⟩] }

def stage2 : Stage :=
  { id := 2, title := "Rebase Squash",
    objective := "커밋을 squash/reword 해서 Feature: 메시지로 정리하세요.",
    hint := "git rebase -i HEAD~N", solution := "git rebase -i HEAD~3",
    checks := [⟨"`git rebase -i`가 필요합니다.", [verb2Pat "rebase" "-i"]⟩] }

def stage3 : Stage :=
  { id := 3, title := "Conflict Merge", objective := "feature-ui를 merge 하세요.",
    hint := "git merge feature-ui", solution := "git merge feature-ui",
    checks := [⟨"`git merge feature-ui`가 필요합니다.", [verb2Pat "merge" "feature-ui"]⟩] }

def stage4 : Stage :=
  { id := 4, title := "Reset Recovery", objective := "잘못된 draft를 reset으로 정리하세요.",
    hint := "git reset --soft HEAD~1", solution := "git reset --soft HEAD~1",
    checks := [⟨"`git reset` 명령이 필요합니다.", [verbPat "reset"]⟩] }

def stage5 : Stage :=
  { id := 5, title := "Release Hotfix", objective := "release 변경을 반영하고 fix 커밋을 남기세요.",
    hint := "git commit -m " ++ sq ++ "fix: ..." ++ sq,
    solution := "git commit -m " ++ sq ++ "fix: apply release hotfix" ++ sq,
    checks := [⟨"fix 메시지가 포함된 커밋이 필요합니다.",
      [fun c => verbPat "commit" c && containsStr (substringAfter c "commit") "fix"]⟩] }

def stage6 : Stage :=
  { id := 6, title := "Feature Branch Start", objective := "feature/auth 브랜치를 생성하세요.",
    hint := "git checkout -b feature/auth", solution := "git checkout -b feature/auth",
    checks := [⟨"feature/auth 브랜치 생성 명령이 필요합니다.",
      [fun c => (verb2Pat "checkout" "-b" c || verb2Pat "switch" "-c" c) &&
        ((words c).get? 3).getD "" == "feature/auth"]⟩] }

def stage7 : Stage :=
  { id := 7, title := "Stash Practice", objective := "stash를 생성하는 명령을 실행하세요.",
    hint := "git stash push -m " ++ sq ++ "api timeout" ++ sq,
    solution := "git stash push -m " ++ sq ++ "api timeout" ++ sq,
    checks := [⟨"`git stash` 명령이 필요합니다.", [verbPat "stash"]⟩] }

def stage8 : Stage :=
  { id := 8, title := "Release Tag", objective := "v1.0.0 태그를 생성하세요.",
    hint := "git tag -a v1.0.0 -m " ++ sq ++ "release" ++ sq,
    solution := "git tag -a v1.0.0 -m " ++ sq ++ "release" ++ sq,
    checks := [⟨"v1.0.0 태그 생성 명령이 필요합니다.",
      [fun c => verbPat "tag" c && containsStr (substringAfter c "tag") "v1.0.0"]⟩] }

def stage9 : Stage :=
  { id := 9, title := "Cherry-pick Range", objective := "커밋 범위를 cherry-pick 하세요.",
    hint := "git cherry-pick <start>^..<end>", solution := "git cherry-pick abc123^..def456",
    checks := [⟨"range cherry-pick 명령이 필요합니다.",
      [fun c => verbPat "cherry-pick" c && containsStr (substringAfter c "cherry-pick") ".."]⟩] }

def stage10 : Stage :=
  { id := 10, title := "Revert Bad Commit", objective := "버그 커밋을 revert 하세요.",
    hint := "git revert <hash>", solution := "git revert abc123",
    checks := [⟨"`git revert`가 필요합니다.", [verbPat "revert"]⟩] }

def stage11 : Stage :=
  { id := 11, title := "Rebase Onto", objective := "feature 브랜치를 rebase --onto 하세요.",
    hint := "git rebase --onto main old-base feature",
    solution := "git rebase --onto main old-base feature",
    checks := [⟨"`git rebase --onto`가 필요합니다.", [verb2Pat "rebase" "--onto"]⟩] }

def stage12 : Stage :=
  { id := 12, title := "Reflog Rescue", objective := "reflog를 확인해 복구 지점을 찾으세요.",
    hint := "git reflog", solution := "git reflog",
    checks := [⟨"`git reflog`가 필요합니다.", [verbPat "reflog"]⟩] }

def stage13 : Stage :=
  { id := 13, title := "Bisect Start", objective := "bisect 탐색을 시작하세요.",
    hint := "git bisect start", solution := "git bisect start",
    checks := [⟨"`git bisect start`가 필요합니다.", [verb2Pat "bisect" "start"]⟩] }

def stage14 : Stage :=
  { id := 14, title := "Worktree Hotfix", objective := "hotfix worktree를 생성하세요.",
    hint := "git worktree add ../hotfix -b hotfix",
    solution := "git worktree add ../hotfix -b hotfix",
    checks := [⟨"`git worktree add`가 필요합니다.", [verb2Pat "worktree" "add"]⟩] }

def stage15 : Stage :=
  { id := 15, title := "Bundle Export", objective := "feature.bundle 파일을 생성하세요.",
    hint := "git bundle create feature.bundle HEAD",
    solution := "git bundle create feature.bundle HEAD",
    checks := [⟨"`git bundle create`가 필요합니다.", [verb2Pat "bundle" "create"]⟩] }

def stage16 : Stage :=
  { id := 16, title := "Notes Namespace", objective := "team 네임스페이스에 note를 추가하세요.",
    hint := "git notes --ref=team add -m " ++ sq ++ "review" ++ sq,
    solution := "git notes --ref=team add -m " ++ sq ++ "review" ++ sq,
    checks := [⟨"`git notes --ref=team add`가 필요합니다.",
      [fun c => verbPat "notes" c && containsStr c "--ref=team" &&
        (words (substringAfter c "--ref=team")).contains "add"]⟩] }

def stage17 : Stage :=
  { id := 17, title := "Replace Object", objective := "replace ref를 생성하세요.",
    hint := "git replace <bad> <good>", solution := "git replace oldhash newhash",
    checks := [⟨"`git replace` 명령이 필요합니다.", [verbPat "replace"]⟩] }

def stage18 : Stage :=
  { id := 18, title := "Merge Strategy Ours", objective := "-X ours 옵션으로 merge 하세요.",
    hint := "git merge -X ours feature-merge", solution := "git merge -X ours feature-merge",
    checks := [⟨"`git merge -X ours`가 필요합니다.",
      [fun c => verbPat "merge" c && dashXOursPat (words c)]⟩] }

def stage19 : Stage :=
  { id := 19, title := "Merge Then Cleanup Branch", objective := "브랜치를 merge 후 삭제하세요.",
    hint := "git branch -d feature-cleanup", solution := "git branch -d feature-cleanup",
    checks := [⟨"브랜치 삭제 명령이 필요합니다.",
      [fun c => verb2Pat "branch" "-d" c && ((words c).get? 3).getD "" == "feature-cleanup"]⟩] }

def stage20 : Stage :=
  { id := 20, title := "Final Amend", objective := "마지막 커밋을 amend 하세요.",
    hint := "git commit --amend -m " ++ sq ++ "Final: ..." ++ sq,
    solution := "git commit --amend -m " ++ sq ++ "Final: finish" ++ sq,
    checks :=
      [⟨"`git commit --amend`가 필요합니다.",
        [fun c => verbPat "commit" c && containsStr (substringAfter c "commit") "--amend"]⟩,
       ⟨"커밋 메시지에 Final: 이 필요합니다.", [fun c => containsStr c "final:"]⟩] }

/-- `StageRepository.stages`. -/
def stages : List Stage :=
  [stage1, stage2, stage3, stage4, stage5, stage6, stage7, stage8, stage9, stage10,
   stage11, stage12, stage13, stage14, stage15, stage16, stage17, stage18, stage19, stage20]

/-- The completion message of part_004 line 16. -/
def stageDoneMsg (stageId : Int) : String :=
  s!"스테이지 {stageId} 완료"

/-- The check walk inside `CommandEvaluator.evaluate` (part_004 lines 10-16):
first failing check wins; all passing yields the completion message. -/
def evalChecks (stageId : Int) (normalized : String) : List CommandCheck → Bool × String
  | [] => (true, stageDoneMsg stageId)
  | ch :: rest =>
    if ch.patterns.any (fun p => p normalized) then evalChecks stageId normalized rest
    else (false, ch.description)

/-- `CommandEvaluator.evaluate` (part_004 lines 3-18): pass/fail over the
trimmed, lowercased raw command text; the repository is not an input. -/
def evaluate (stage : Stage) (command : String) : Bool × String :=
  let normalized := lowerStr (trimStr command)
  if normalized == "" then (false, "명령어를 입력하세요.")
  else evalChecks stage.id normalized stage.checks

/-! ## GameViewModel (GameViewModel.kt) -/

structure UiLog where
  text : String
  success : Bool
deriving Repr, DecidableEq

/-- `GameUiState` with its Kotlin default values. -/
structure GameUiState where
  currentStageIndex : Nat
  terminalLogs : List UiLog
  completedCount : Nat
  showHint : Bool
  showSolution : Bool
  commandInput : String
  gameFinished : Bool
deriving Repr, DecidableEq

/-- `GameUiState()` with every default (GameViewModel.kt lines 14-22). -/
def baseUiState : GameUiState :=
  { currentStageIndex := 0,
    terminalLogs := [⟨"Git Learning Mobile에 오신 것을 환영합니다.", false⟩],
    completedCount := 0, showHint := false, showSolution := false,
    commandInput := "", gameFinished := false }

/-- The view model's state: the UI state flow value plus the engine. -/
structure AppState where
  ui : GameUiState
  engine : EngineState
deriving Repr, DecidableEq

/-- Guard value for `stages[i]`; the view model never indexes out of
bounds, so this stands for the Kotlin IndexOutOfBounds case. -/
def fallbackStage : Stage :=
  { id := 0, title := "", objective := "", hint := "", solution := "", checks := [] }

/-- `stages[i]`. -/
def stageAt (i : Nat) : Stage :=
  (stages.get? i).getD fallbackStage

def initialEngine : EngineState :=
  { git := none, currentStageId := -1, clock := 0 }

/-- The `init` block (GameViewModel.kt lines 33-39): bootstrap stage 1 and
append its message to the logs. -/
def initialApp : AppState :=
  let st := stageAt 0
  let p := prepareStage initialEngine st.id
  { ui := { baseUiState with terminalLogs := baseUiState.terminalLogs ++ [⟨p.2, false⟩] },
    engine := p.1 }

/-- `onCommandChanged` (lines 43-45). -/
def onCommandChanged (a : AppState) (value : String) : AppState :=
  { a with ui := { a.ui with commandInput := value } }

/-- `runCommand` (lines 47-83). -/
def runCommand (a : AppState) : AppState :=
  if a.ui.gameFinished then a
  else
    let stage := stageAt a.ui.currentStageIndex
    let command := a.ui.commandInput
    let engineRes := execute a.engine stage.id command
    let evalRes := evaluate stage command
    let overallSuccess := engineRes.2.success && evalRes.1
    let t := "$ " ++ trimStr command ++ "\n" ++ engineRes.2.output ++ "\n" ++ evalRes.2
    let newLogs := a.ui.terminalLogs ++ [⟨t, overallSuccess⟩]
    if !overallSuccess then
      { engine := engineRes.1,
        ui := { a.ui with terminalLogs := newLogs, commandInput := "" } }
    else
      let nextIndex := a.ui.currentStageIndex + 1
      let finished := decide (stages.length ≤ nextIndex)
      let prepRes :=
        if finished then (engineRes.1, "전체 스테이지 완료")
        else prepareStage engineRes.1 (stageAt nextIndex).id
      { engine := prepRes.1,
        ui := { a.ui with
          terminalLogs := newLogs ++ [⟨prepRes.2, true⟩],
          commandInput := "",
          completedCount := a.ui.completedCount + 1,
          currentStageIndex := if finished then a.ui.currentStageIndex else nextIndex,
          showHint := false, showSolution := false,
          gameFinished := finished } }

/-- `toggleHint` (lines 85-88). -/
def toggleHint (a : AppState) : AppState :=
  { a with ui := { a.ui with showHint := !a.ui.showHint } }

/-- `toggleSolution` (lines 90-93). -/
def toggleSolution (a : AppState) : AppState :=
  { a with ui := { a.ui with showSolution := !a.ui.showSolution } }

/-- `resetCurrentStage` (lines 95-106). -/
def resetCurrentStage (a : AppState) : AppState :=
  let st := stageAt a.ui.currentStageIndex
  let p := prepareStage a.engine st.id
  { engine := p.1,
    ui := { a.ui with
      terminalLogs := a.ui.terminalLogs ++ [⟨p.2, false⟩],
      commandInput := "", showHint := false, showSolution := false } }

/-- `restartGame` (lines 108-113). -/
def restartGame (a : AppState) : AppState :=
  let p := prepareStage a.engine (stageAt 0).id
  { engine := p.1,
    ui := { baseUiState with
      terminalLogs := [⟨"새 게임을 시작했습니다.", false⟩, ⟨p.2, false⟩] } }

/-- The session operations a player can trigger on the view model. -/
inductive Op
  | input (value : String)
  | run
  | hint
  | solution
  | reset
  | restart
deriving Repr, DecidableEq

/-- One view-model request. -/
def step (a : AppState) : Op → AppState
  | .input v => onCommandChanged a v
  | .run => runCommand a
  | .hint => toggleHint a
  | .solution => toggleSolution a
  | .reset => resetCurrentStage a
  | .restart => restartGame a

/-- `engineResult.success && passed` for the pending command. -/
def overallOf (a : AppState) : Bool :=
  (execute a.engine (stageAt a.ui.currentStageIndex).id a.ui.commandInput).2.success &&
    (evaluate (stageAt a.ui.currentStageIndex) a.ui.commandInput).1

/-- Does the pending submission pass (and the game is still running)? -/
def submissionPasses (a : AppState) : Bool :=
  !a.ui.gameFinished && overallOf a

/-! ## The declarative Validation Engine

Modelled from the spec: the rule-based Validation Engine with `must_have` /
`must_not_have` rule sets (spec §4.4) belongs to the CLI backend, which is
not among the sources; only its stage-definition format (CLI_STAGE_GUIDE.md)
and the strategy notes (src/unnamed/part_009) describe it. The rule kinds
and the evaluation order below follow the spec's words, evaluated against
the repository model above. -/

/-- Modelled from the spec: the rule kinds of §4.4. -/
inductive VRule
  | head_message_contains (substr : String)
  | file_contains (path substr : String)
  | file_exists (path : String)
  | file_not_exists (path : String)
  | commit_count_at_most (n : Nat)
  | has_merge_commits
  | no_merge_commits
  | branch_is_current (name : String)
  | branch_exists (name : String)
  | stash_count_at_least (n : Nat)
  | worktree_clean
  | commit_message_contains (substr : String)
deriving Repr, DecidableEq

/-- Modelled from the spec: a scenario's rule set, `must_have` rules then
`must_not_have` rules, each in declared order. -/
structure RuleSet where
  mustHave : List VRule
  mustNotHave : List VRule
deriving Repr, DecidableEq

/-- The message of the HEAD commit of the current branch. -/
def headMessage (r : Repo) : String :=
  (((headId r).bind (commitAt r)).map Commit.msg).getD ""

/-- Modelled from the spec: the exact semantics §4.4 gives each rule kind,
as a pure predicate over the repository state. -/
def ruleHolds (r : Repo) : VRule → Bool
  | .head_message_contains s => containsStr (headMessage r) s
  | .file_contains p s =>
    match r.workdir.lookup p with
    | some content => containsStr content s
    | none => false
  | .file_exists p => (r.workdir.lookup p).isSome
  | .file_not_exists p => (r.workdir.lookup p).isNone
  | .commit_count_at_most n => decide ((reachableFromHead r).length ≤ n)
  | .has_merge_commits => (reachableFromHead r).any (fun i => decide (2 ≤ (parentsOf r i).length))
  | .no_merge_commits => !(reachableFromHead r).any (fun i => decide (2 ≤ (parentsOf r i).length))
  | .branch_is_current name => currentBranch r == name
  | .branch_exists name => (r.branches.lookup name).isSome
  | .stash_count_at_least n => decide (n ≤ r.stashes)
  | .worktree_clean => !isDirty r
  | .commit_message_contains s => (reachableFromHead r).any (fun i => containsStr (msgAt r i) s)

/-- The rule's description, returned as the failure reason. -/
def ruleDesc : VRule → String
  | .head_message_contains s => "head_message_contains " ++ s
  | .file_contains p s => "file_contains " ++ p ++ " " ++ s
  | .file_exists p => "file_exists " ++ p
  | .file_not_exists p => "file_not_exists " ++ p
  | .commit_count_at_most n => "commit_count_at_most " ++ toString n
  | .has_merge_commits => "has_merge_commits"
  | .no_merge_commits => "no_merge_commits"
  | .branch_is_current name => "branch_is_current " ++ name
  | .branch_exists name => "branch_exists " ++ name
  | .stash_count_at_least n => "stash_count_at_least " ++ toString n
  | .worktree_clean => "worktree_clean"
  | .commit_message_contains s => "commit_message_contains " ++ s

/-- Modelled from the spec: walk the `must_have` rules in declared order;
the first that fails to hold yields its description. -/
def evalMustHave (r : Repo) : List VRule → Option String
  | [] => none
  | v :: rest => if ruleHolds r v then evalMustHave r rest else some (ruleDesc v)

/-- Modelled from the spec: walk the `must_not_have` rules in declared
order; the first that holds yields its description. -/
def evalMustNot (r : Repo) : List VRule → Option String
  | [] => none
  | v :: rest => if ruleHolds r v then some (ruleDesc v) else evalMustNot r rest

/-- Modelled from the spec: `evaluate(handle, scenario)` of §4.4 —
`must_have` rules first, then `must_not_have` rules, stopping at the first
failing rule and returning its description. -/
def evaluateRules (r : Repo) (rs : RuleSet) : Bool × Option String :=
  match evalMustHave r rs.mustHave with
  | some d => (false, some d)
  | none =>
    match evalMustNot r rs.mustNotHave with
    | some d => (false, some d)
    | none => (true, none)

/-! ## Auxiliary definitions for the statements below -/

/-- The repository after an engine call; a raised error leaves it as it was. -/
def repoAfter (r : Repo) (x : Except GitError (Repo × EngineResult)) : Repo :=
  match x with
  | .ok (r2, _) => r2
  | .error _ => r

/-- A double quote character, for building commands with quoted messages. -/
def dq : String :=
  String.mk [dquoteC]

/-! ## Theorems -/

/-- The report-only arms never change the repository, whatever the ref. -/
theorem repoAfter_reportOnly (r : Repo) (verb ref missingMsg : String) :
    repoAfter r (reportOnlyCmd r verb ref missingMsg) = r := by
  unfold reportOnlyCmd
  by_cases h : (ref == "") = true
  · simp [h, repoAfter]
  · simp only [h, Bool.false_eq_true, if_false]
    cases resolve r ref <;> rfl

/-- C1 (amended): on any repository state, the safe-listed merge,
cherry-pick and revert commands are delegated to the engine but only resolve
their target and report it; they leave the repository exactly unchanged. -/
theorem c1_merge_cherry_pick_revert_report_only (r : Repo) (clk : Nat) :
    repoAfter r (runGitCommand r clk "git merge feature-merge") = r ∧
    repoAfter r (runGitCommand r clk "git cherry-pick abc123") = r ∧
    repoAfter r (runGitCommand r clk "git revert abc123") = r := by
  refine ⟨?_, ?_, ?_⟩
  · exact repoAfter_reportOnly r "merge" (lastTokenAfter "git merge feature-merge" "merge")
      "merge 대상이 필요합니다."
  · exact repoAfter_reportOnly r "cherry-pick"
      (firstTokenAfter "git cherry-pick abc123" "cherry-pick") "cherry-pick 대상이 필요합니다."
  · exact repoAfter_reportOnly r "revert" (firstTokenAfter "git revert abc123" "revert")
      "revert 대상이 필요합니다."

/-- C1 (counterexample): on the seeded stage-18 repository, the command
`git merge feature-merge` reports success yet the repository state —
commits, branches, index, working tree — is exactly the seeded state; the
merge was not applied. -/
theorem c1_counterexample_merge_reports_without_mutating :
    (execute { git := some (seedBaseRepo 18), currentStageId := 18, clock := 0 } 18
        "git merge feature-merge").1 =
      { git := some (seedBaseRepo 18), currentStageId := 18, clock := 0 } ∧
    (execute { git := some (seedBaseRepo 18), currentStageId := 18, clock := 0 } 18
        "git merge feature-merge").2.success = true :=
  ⟨rfl, rfl⟩

/-- C3 (amended): a hint or solution request only flips the corresponding
visibility flag; the engine (and so the repository) is untouched, and a
second request within the same attempt flips the flag back — there is no
repeat flag and no automatic reset. -/
theorem c3_hint_solution_toggle_only (a : AppState) :
    step a Op.hint = { a with ui := { a.ui with showHint := !a.ui.showHint } } ∧
    step (step a Op.hint) Op.hint = a ∧
    step a Op.solution = { a with ui := { a.ui with showSolution := !a.ui.showSolution } } ∧
    step (step a Op.solution) Op.solution = a := by
  refine ⟨rfl, ?_, rfl, ?_⟩ <;> simp [step, toggleHint, toggleSolution]

/-- C3 (counterexample): from the freshly started app, the first hint
request triggers no reset (the engine state is identical) and a second hint
request toggles the flag back to false instead of keeping it set. -/
theorem c3_counterexample_no_reset_and_flag_toggles_back :
    (step initialApp Op.hint).engine = initialApp.engine ∧
    (step initialApp Op.hint).ui.showHint = true ∧
    (step (step initialApp Op.hint) Op.hint).ui.showHint = false :=
  ⟨rfl, rfl, rfl⟩

/-- C5 (amended): empty (or whitespace-only) input yields the empty-command
failure without running any git command, but only after the
bootstrap-on-demand guard has (possibly) prepared the stage repository. -/
theorem c5_empty_input_fails_after_bootstrap_guard (s : EngineState) (stageId : Int)
    (raw : String) (h : trimStr raw = "") :
    execute s stageId raw = (prepIfNeeded s stageId, ⟨false, "명령어를 입력하세요."⟩) := by
  simp [execute, h]

/-- Witness for `c5_empty_input_fails_after_bootstrap_guard` at a
whitespace-only input on an uninitialised engine. -/
theorem c5_empty_input_witness :
    execute { git := none, currentStageId := -1, clock := 0 } 1 "   " =
      (prepIfNeeded { git := none, currentStageId := -1, clock := 0 } 1,
        ⟨false, "명령어를 입력하세요."⟩) :=
  c5_empty_input_fails_after_bootstrap_guard _ 1 "   " rfl

/-- C5 (counterexample): on an uninitialised engine, empty input does touch
the repository — `execute` bootstraps stage 1 before the empty check, so the
engine afterwards holds the freshly seeded repository. -/
theorem c5_counterexample_empty_input_bootstraps :
    (execute { git := none, currentStageId := -1, clock := 0 } 1 "").1.git =
      some (seedBaseRepo 1) ∧
    (execute { git := none, currentStageId := -1, clock := 0 } 1 "").2 =
      ⟨false, "명령어를 입력하세요."⟩ :=
  ⟨rfl, rfl⟩

/-- The check walk stops at the first check none of whose patterns match. -/
theorem evalChecks_find_eq (stageId : Int) (normalized : String)
    (checks : List CommandCheck) :
    evalChecks stageId normalized checks =
      (match checks.find? (fun ch => !ch.patterns.any (fun p => p normalized)) with
       | some ch => (false, ch.description)
       | none => (true, stageDoneMsg stageId)) := by
  induction checks with
  | nil => rfl
  | cons ch rest ih =>
    by_cases h : (ch.patterns.any (fun p => p normalized)) = true
    · rw [List.find?_cons_of_neg]
      · simpa [evalChecks, h] using ih
      · simp [h]
    · rw [List.find?_cons_of_pos]
      · simp [evalChecks, h]
      · simp [h]

/-- C2 (amended): the pass/fail decision of stage evaluation is a pure
function of the stage's regex checks and the normalized raw command text —
the first check none of whose patterns match the text fails the evaluation —
and the repository state is not an input to it at all. -/
theorem c2_evaluate_is_textual_matching_only (stage : Stage) (command : String) :
    evaluate stage command =
      (if lowerStr (trimStr command) == "" then (false, "명령어를 입력하세요.")
       else
         match stage.checks.find?
             (fun ch => !ch.patterns.any (fun p => p (lowerStr (trimStr command)))) with
         | some ch => (false, ch.description)
         | none => (true, stageDoneMsg stage.id)) := by
  unfold evaluate
  by_cases h : (lowerStr (trimStr command) == "") = true
  · simp [h]
  · simp [h, evalChecks_find_eq]

/-- C2 (counterexample): on stage 1 the command `git cherry-pick hotfix`
passes evaluation and the engine reports success, yet the repository is
exactly the seeded state afterwards and its HEAD message does not contain
"Hotfix:" — the pass verdict came from matching the command text, not from
inspecting repository state. -/
theorem c2_counterexample_pass_without_state_inspection :
    (evaluate stage1 "git cherry-pick hotfix").1 = true ∧
    (execute { git := some (seedBaseRepo 1), currentStageId := 1, clock := 0 } 1
        "git cherry-pick hotfix").1.git = some (seedBaseRepo 1) ∧
    (execute { git := some (seedBaseRepo 1), currentStageId := 1, clock := 0 } 1
        "git cherry-pick hotfix").2.success = true ∧
    containsStr (headMessage (seedBaseRepo 1)) "Hotfix:" = false :=
  ⟨rfl, rfl, rfl, rfl⟩

/-- C4 (amended): when a submission fails overall validation, the stage
index, completed-stage count and finished flag are unchanged and the failure
message is only logged — but the engine keeps whatever state the
already-executed command produced, since the gateway runs before
validation. -/
theorem c4_failed_validation_keeps_progress_not_repo (a : AppState)
    (h1 : a.ui.gameFinished = false) (h2 : overallOf a = false) :
    (step a Op.run).ui.currentStageIndex = a.ui.currentStageIndex ∧
    (step a Op.run).ui.completedCount = a.ui.completedCount ∧
    (step a Op.run).ui.gameFinished = a.ui.gameFinished ∧
    (step a Op.run).engine =
      (execute a.engine (stageAt a.ui.currentStageIndex).id a.ui.commandInput).1 := by
  have h2b : ((execute a.engine (stageAt a.ui.currentStageIndex).id a.ui.commandInput).2.success
      && (evaluate (stageAt a.ui.currentStageIndex) a.ui.commandInput).1) = false := by
    simpa [overallOf] using h2
  simp [step, runCommand, h1, h2b]

/-- Witness for `c4_failed_validation_keeps_progress_not_repo`: the stage-1
submission `git add notes` executes but fails validation. -/
theorem c4_failed_validation_witness :
    (step (onCommandChanged initialApp "git add notes") Op.run).ui.currentStageIndex =
      (onCommandChanged initialApp "git add notes").ui.currentStageIndex ∧
    (step (onCommandChanged initialApp "git add notes") Op.run).ui.completedCount =
      (onCommandChanged initialApp "git add notes").ui.completedCount ∧
    (step (onCommandChanged initialApp "git add notes") Op.run).ui.gameFinished =
      (onCommandChanged initialApp "git add notes").ui.gameFinished ∧
    (step (onCommandChanged initialApp "git add notes") Op.run).engine =
      (execute (onCommandChanged initialApp "git add notes").engine
        (stageAt (onCommandChanged initialApp "git add notes").ui.currentStageIndex).id
        (onCommandChanged initialApp "git add notes").ui.commandInput).1 :=
  c4_failed_validation_keeps_progress_not_repo (onCommandChanged initialApp "git add notes")
    rfl rfl

/-- C4 (counterexample): submitting `git commit -m "wip"` on stage 1 fails
validation — the completed count stays 0 — yet the repository handle is not
as before: the engine created a third commit before validation ran. -/
theorem c4_counterexample_failed_validation_mutated_repo :
    (step (onCommandChanged initialApp ("git commit -m " ++ dq ++ "wip" ++ dq))
        Op.run).ui.completedCount = 0 ∧
    (step (onCommandChanged initialApp ("git commit -m " ++ dq ++ "wip" ++ dq))
        Op.run).engine.git.map (fun r => r.commits.length) = some 3 ∧
    initialApp.engine.git.map (fun r => r.commits.length) = some 2 :=
  ⟨rfl, rfl, rfl⟩

/-- C6: every error a git command raises inside the engine is caught by
`execute` and converted into an ordinary failed result carrying the error
message; no engine error escapes the gateway. -/
theorem c6_engine_errors_become_failed_results (s : EngineState) (stageId : Int)
    (raw : String) (r : Repo) (e : GitError)
    (h1 : (trimStr raw == "") = false)
    (h2 : startsWithStr (trimStr raw) "git " = true)
    (h3 : (prepIfNeeded s stageId).git = some r)
    (h4 : runGitCommand r (prepIfNeeded s stageId).clock (trimStr raw) = .error e) :
    execute s stageId raw =
      (prepIfNeeded s stageId, ⟨false, "실행 실패: " ++ errMessage e⟩) := by
  simp [execute, h1, h2, h3, h4]

/-- Witness for `c6_engine_errors_become_failed_results`: checking out a
nonexistent branch raises `RefNotFoundException`, which surfaces as an
ordinary failed result. -/
theorem c6_engine_errors_witness :
    execute { git := some (seedBaseRepo 1), currentStageId := 1, clock := 0 } 1
        "git checkout nosuch" =
      (prepIfNeeded { git := some (seedBaseRepo 1), currentStageId := 1, clock := 0 } 1,
        ⟨false, "실행 실패: " ++ errMessage (.refNotFound "nosuch")⟩) :=
  c6_engine_errors_become_failed_results _ 1 "git checkout nosuch" (seedBaseRepo 1)
    (.refNotFound "nosuch") rfl rfl rfl rfl

/-- The must-have walk returns the description of the first failing rule. -/
theorem evalMustHave_find_eq (r : Repo) (l : List VRule) :
    evalMustHave r l = (l.find? (fun v => !ruleHolds r v)).map ruleDesc := by
  induction l with
  | nil => rfl
  | cons v rest ih =>
    by_cases h : ruleHolds r v = true
    · rw [List.find?_cons_of_neg]
      · simpa [evalMustHave, h] using ih
      · simp [h]
    · rw [List.find?_cons_of_pos]
      · simp [evalMustHave, h]
      · simp [h]

/-- The must-not-have walk returns the description of the first rule that
holds. -/
theorem evalMustNot_find_eq (r : Repo) (l : List VRule) :
    evalMustNot r l = (l.find? (fun v => ruleHolds r v)).map ruleDesc := by
  induction l with
  | nil => rfl
  | cons v rest ih =>
    by_cases h : ruleHolds r v = true
    · rw [List.find?_cons_of_pos]
      · simp [evalMustNot, h]
      · simp [h]
    · rw [List.find?_cons_of_neg]
      · simpa [evalMustNot, h] using ih
      · simp [h]

/-- The must-have walk succeeds exactly when every rule holds. -/
theorem evalMustHave_none_iff (r : Repo) (l : List VRule) :
    evalMustHave r l = none ↔ l.all (fun v => ruleHolds r v) = true := by
  induction l with
  | nil => simp [evalMustHave]
  | cons v rest ih =>
    by_cases h : ruleHolds r v = true <;> simp [evalMustHave, h, ih]

/-- The must-not-have walk succeeds exactly when no rule holds. -/
theorem evalMustNot_none_iff (r : Repo) (l : List VRule) :
    evalMustNot r l = none ↔ l.all (fun v => !ruleHolds r v) = true := by
  induction l with
  | nil => simp [evalMustNot]
  | cons v rest ih =>
    by_cases h : ruleHolds r v = true <;> simp [evalMustNot, h, ih]

/-- C7: rule evaluation walks the must-have rules in declared order and then
the must-not-have rules, stops at the first failing rule and returns its
description as the reason, and passes exactly when all must-have rules hold
and no must-not-have rule holds. -/
theorem c7_rules_walked_in_order_first_failure_wins (r : Repo) (rs : RuleSet) :
    (evaluateRules r rs =
      (match rs.mustHave.find? (fun v => !ruleHolds r v) with
       | some v => (false, some (ruleDesc v))
       | none =>
         match rs.mustNotHave.find? (fun v => ruleHolds r v) with
         | some v => (false, some (ruleDesc v))
         | none => (true, none))) ∧
    ((evaluateRules r rs).1 =
      (rs.mustHave.all (fun v => ruleHolds r v) &&
        rs.mustNotHave.all (fun v => !ruleHolds r v))) := by
  constructor
  · unfold evaluateRules
    rw [evalMustHave_find_eq, evalMustNot_find_eq]
    rcases rs.mustHave.find? (fun v => !ruleHolds r v) with _ | v
    · rcases rs.mustNotHave.find? (fun v => ruleHolds r v) with _ | w <;> rfl
    · rfl
  · unfold evaluateRules
    rcases h1 : evalMustHave r rs.mustHave with _ | d
    · rcases h2 : evalMustNot r rs.mustNotHave with _ | d2
      · have a1 := (evalMustHave_none_iff r rs.mustHave).mp h1
        have a2 := (evalMustNot_none_iff r rs.mustNotHave).mp h2
        simp [a1, a2]
      · have a1 := (evalMustHave_none_iff r rs.mustHave).mp h1
        have a2 : ¬ rs.mustNotHave.all (fun v => !ruleHolds r v) = true := by
          intro hc
          have hn := (evalMustNot_none_iff r rs.mustNotHave).mpr hc
          rw [h2] at hn
          cases hn
        rcases hall : rs.mustNotHave.all (fun v => !ruleHolds r v)
        · simp [a1, hall]
        · exact absurd hall a2
    · have a1 : ¬ rs.mustHave.all (fun v => ruleHolds r v) = true := by
        intro hc
        have hn := (evalMustHave_none_iff r rs.mustHave).mpr hc
        rw [h1] at hn
        cases hn
      rcases hall : rs.mustHave.all (fun v => ruleHolds r v)
      · simp [hall]
      · exact absurd hall a1

/-- C8: seeding is deterministic — `prepareStage` discards whatever engine
state preceded it, so two runs for the same stage id produce identical
repositories (same commits, messages, file contents, branches) and the same
bootstrap message, with the canonical default branch "main" checked out. -/
theorem c8_prepare_deterministic_and_main_checked_out (s1 s2 : EngineState)
    (stageId : Int) :
    (prepareStage s1 stageId).1.git = (prepareStage s2 stageId).1.git ∧
    (prepareStage s1 stageId).2 = (prepareStage s2 stageId).2 ∧
    ((prepareStage s1 stageId).1.git).map currentBranch = some "main" := by
  refine ⟨rfl, rfl, ?_⟩
  show some (currentBranch (seedBaseRepo stageId)) = some "main"
  have h : currentBranch (seedBaseRepo stageId) = "main" := by
    simp only [seedBaseRepo]
    split_ifs <;> rfl
  rw [h]

/-- C9: per session operation, the completed-stage count (the recorded
outcome history) is reset to zero by a restart, incremented by exactly one
by a passing submission, and unchanged by every other operation — so it
never decreases and never exceeds the number of stages passed. -/
theorem c9_completed_count_step_law (a : AppState) (op : Op) :
    (step a op).ui.completedCount =
      (match op with
       | Op.restart => 0
       | Op.run => a.ui.completedCount + (if submissionPasses a then 1 else 0)
       | _ => a.ui.completedCount) := by
  cases op with
  | input v => rfl
  | hint => rfl
  | solution => rfl
  | reset => rfl
  | restart => rfl
  | run =>
    show (runCommand a).ui.completedCount = _
    by_cases hf : a.ui.gameFinished = true
    · simp [runCommand, submissionPasses, hf]
    · by_cases ho : overallOf a = true
      · have hob : ((execute a.engine (stageAt a.ui.currentStageIndex).id
            a.ui.commandInput).2.success &&
            (evaluate (stageAt a.ui.currentStageIndex) a.ui.commandInput).1) = true := by
          simpa [overallOf] using ho
        simp [runCommand, submissionPasses, hf, ho, hob]
      · have hob : ((execute a.engine (stageAt a.ui.currentStageIndex).id
            a.ui.commandInput).2.success &&
            (evaluate (stageAt a.ui.currentStageIndex) a.ui.commandInput).1) = false := by
          simpa [overallOf] using ho
        simp [runCommand, submissionPasses, hf, ho, hob]

/-- Looking up the key just set finds the value just set. -/
theorem lookup_setKey_self {α : Type} (l : List (String × α)) (k : String) (v : α) :
    (setKey l k v).lookup k = some v := by
  induction l with
  | nil => simp [setKey, List.lookup]
  | cons kv rest ih =>
    rcases kv with ⟨k2, v2⟩
    by_cases h : (k2 == k) = true
    · simp [setKey, h, List.lookup]
    · have h2 : (k2 == k) = false := by
        cases hb : k2 == k
        · rfl
        · exact absurd hb h
      have hk : (k == k2) = false := by
        rw [beq_eq_false_iff_ne] at h2 ⊢
        exact fun hc => h2 hc.symm
      simp [setKey, h2, List.lookup, hk, ih]

/-- The pair just set is a member of the updated association list. -/
theorem mem_setKey_self {α : Type} (l : List (String × α)) (k : String) (v : α) :
    (k, v) ∈ setKey l k v := by
  induction l with
  | nil => simp [setKey]
  | cons kv rest ih =>
    rcases kv with ⟨k2, v2⟩
    by_cases h : (k2 == k) = true
    · simp [setKey, h]
    · have h2 : (k2 == k) = false := by
        cases hb : k2 == k
        · rfl
        · exact absurd hb h
      simp only [setKey, h2, Bool.false_eq_true, if_false]
      exact List.mem_cons_of_mem _ ih

/-- A nonempty list is not `isEmpty`. -/
theorem isEmpty_false_of_mem {α : Type} {l : List α} {a : α} (h : a ∈ l) :
    l.isEmpty = false := by
  cases l with
  | nil => cases h
  | cons b t => rfl

/-- A staged file absent from HEAD appears among the added paths. -/
theorem mem_statusAdded {r : Repo} {k v : String}
    (hmem : (k, v) ∈ r.index) (hnone : (headTree r).lookup k = none) :
    k ∈ statusAdded r := by
  unfold statusAdded
  refine List.mem_map.mpr ⟨(k, v), List.mem_filter.mpr ⟨hmem, ?_⟩, rfl⟩
  simp [hnone]

/-- A staged file differing from its HEAD content appears among the changed
paths. -/
theorem mem_statusChanged {r : Repo} {k v old : String}
    (hmem : (k, v) ∈ r.index) (hsome : (headTree r).lookup k = some old)
    (hne : (old != v) = true) :
    k ∈ statusChanged r := by
  unfold statusChanged
  refine List.mem_map.mpr ⟨(k, v), List.mem_filter.mpr ⟨hmem, ?_⟩, rfl⟩
  simp [hsome, hne]

/-- C10 (amended): on a completely clean repository whose HEAD does not
already contain this tick's journal content, a bare `git commit` succeeds:
the engine first writes the clock-stamped journal.txt into the working tree
and stages it, then commits — so the commit mutates the working tree with
content the player never created, and adds exactly one commit. -/
theorem c10_clean_commit_writes_journal_and_succeeds (r : Repo) (clk : Nat)
    (h1 : isDirty r = false)
    (h2 : (headTree r).lookup "journal.txt" ≠ some (journalLine clk)) :
    runGitCommand r clk "git commit" =
      .ok (commitTotal (addPattern (writeFileOp r "journal.txt" (journalLine clk))
            "journal.txt") (defaultCommitMessage clk),
        ⟨true, commitDoneMsg (defaultCommitMessage clk)⟩) ∧
    (repoAfter r (runGitCommand r clk "git commit")).workdir.lookup "journal.txt" =
      some (journalLine clk) ∧
    (repoAfter r (runGitCommand r clk "git commit")).commits.length =
      r.commits.length + 1 := by
  have hstep : runGitCommand r clk "git commit" =
      (commitStrict (ensureSomethingToCommit r clk) (defaultCommitMessage clk)).map
        (fun r2 => (r2, ⟨true, commitDoneMsg (defaultCommitMessage clk)⟩)) := rfl
  have hens : ensureSomethingToCommit r clk =
      addPattern (writeFileOp r "journal.txt" (journalLine clk)) "journal.txt" := by
    unfold ensureSomethingToCommit
    rw [h1]
    rfl
  have hr1eq : addPattern (writeFileOp r "journal.txt" (journalLine clk)) "journal.txt" =
      { r with
        workdir := setKey r.workdir "journal.txt" (journalLine clk)
        index := setKey r.index "journal.txt" (journalLine clk) } := by
    unfold addPattern writeFileOp
    rw [show (("journal.txt" : String) == ".") = false from rfl]
    simp [lookup_setKey_self]
  have hmemJ : ("journal.txt", journalLine clk) ∈
      setKey r.index "journal.txt" (journalLine clk) := mem_setKey_self _ _ _
  have hemp : commitEmptyB (addPattern (writeFileOp r "journal.txt" (journalLine clk))
      "journal.txt") = false := by
    rw [hr1eq]
    rcases hjt : (headTree r).lookup "journal.txt" with _ | old
    · have hadd : "journal.txt" ∈ statusAdded { r with
          workdir := setKey r.workdir "journal.txt" (journalLine clk)
          index := setKey r.index "journal.txt" (journalLine clk) } :=
        mem_statusAdded hmemJ hjt
      have : (statusAdded { r with
          workdir := setKey r.workdir "journal.txt" (journalLine clk)
          index := setKey r.index "journal.txt" (journalLine clk) }).isEmpty = false :=
        isEmpty_false_of_mem hadd
      unfold commitEmptyB
      rw [this, Bool.false_and, Bool.false_and]
    · have hneq : (old != journalLine clk) = true := by
        rw [bne_iff_ne]
        intro hcontra
        exact h2 (by rw [hjt, hcontra])
      have hchg : "journal.txt" ∈ statusChanged { r with
          workdir := setKey r.workdir "journal.txt" (journalLine clk)
          index := setKey r.index "journal.txt" (journalLine clk) } :=
        mem_statusChanged hmemJ hjt hneq
      have hchgF : (statusChanged { r with
          workdir := setKey r.workdir "journal.txt" (journalLine clk)
          index := setKey r.index "journal.txt" (journalLine clk) }).isEmpty = false :=
        isEmpty_false_of_mem hchg
      unfold commitEmptyB
      rw [hchgF, Bool.and_false, Bool.false_and]
  have hcs : commitStrict (addPattern (writeFileOp r "journal.txt" (journalLine clk))
        "journal.txt") (defaultCommitMessage clk) =
      .ok (commitTotal (addPattern (writeFileOp r "journal.txt" (journalLine clk))
        "journal.txt") (defaultCommitMessage clk)) := by
    unfold commitStrict
    rw [hemp, Bool.and_false]
    rfl
  have hmain : runGitCommand r clk "git commit" =
      .ok (commitTotal (addPattern (writeFileOp r "journal.txt" (journalLine clk))
            "journal.txt") (defaultCommitMessage clk),
        ⟨true, commitDoneMsg (defaultCommitMessage clk)⟩) := by
    rw [hstep, hens, hcs]
    rfl
  refine ⟨hmain, ?_, ?_⟩
  · rw [hmain]
    show (commitTotal (addPattern (writeFileOp r "journal.txt" (journalLine clk))
        "journal.txt") (defaultCommitMessage clk)).workdir.lookup "journal.txt" = _
    rw [hr1eq]
    exact lookup_setKey_self _ _ _
  · rw [hmain]
    show (commitTotal (addPattern (writeFileOp r "journal.txt" (journalLine clk))
        "journal.txt") (defaultCommitMessage clk)).commits.length = _
    rw [hr1eq]
    show ((r.commits ++ [_]).length) = r.commits.length + 1
    rw [List.length_append]
    rfl

/-- Witness for `c10_clean_commit_writes_journal_and_succeeds` on the clean
seeded stage-1 repository. -/
theorem c10_clean_commit_witness :
    runGitCommand (seedBaseRepo 1) 0 "git commit" =
      .ok (commitTotal (addPattern (writeFileOp (seedBaseRepo 1) "journal.txt"
            (journalLine 0)) "journal.txt") (defaultCommitMessage 0),
        ⟨true, commitDoneMsg (defaultCommitMessage 0)⟩) ∧
    (repoAfter (seedBaseRepo 1) (runGitCommand (seedBaseRepo 1) 0
        "git commit")).workdir.lookup "journal.txt" = some (journalLine 0) ∧
    (repoAfter (seedBaseRepo 1) (runGitCommand (seedBaseRepo 1) 0
        "git commit")).commits.length = (seedBaseRepo 1).commits.length + 1 :=
  c10_clean_commit_writes_journal_and_succeeds (seedBaseRepo 1) 0 rfl (by decide)

/-- C10 (counterexample): a commit command can still fail for lack of
changes — an untracked file makes the dirtiness check skip the journal write
while contributing nothing stageable, so the commit raises an empty-commit
error which `execute` surfaces as a failed result. -/
theorem c10_counterexample_commit_fails_with_untracked_only :
    isDirty (writeFileOp (seedBaseRepo 1) "note.txt" "x") = true ∧
    runGitCommand (writeFileOp (seedBaseRepo 1) "note.txt" "x") 0 "git commit" =
      .error .emptyCommit ∧
    (execute { git := some (writeFileOp (seedBaseRepo 1) "note.txt" "x"),
                currentStageId := 1, clock := 0 } 1 "git commit").2.success = false :=
  ⟨rfl, rfl, rfl⟩

end GitGame
